import Mathlib

/- Shallow embedding of pygmid2aud (src/increment_fname.py and
   src/pygmid2aud.py).  Strings are modeled as List Char; the file system as a
   predicate List Char → Bool (os.path.exists); loops that Python drives by
   exceptions or unbounded iteration are modeled with explicit fuel, where a
   result of none means the computation has not returned within the given
   fuel.  A statement that a function returns none for every fuel therefore
   states that the Python loop never returns. -/

/- ===================== increment_fname.py ===================== -/

/-- Whitespace accepted (and stripped) by Python int() around a numeral
(ASCII subset relevant to filenames). -/
def pyIsSpace (c : Char) : Bool :=
  c == ' ' || c == '\t' || c == '\n' || c == '\r' || c == '\x0b' || c == '\x0c'

/-- The strip of surrounding whitespace performed by Python int(). -/
def pyStrip (s : List Char) : List Char :=
  ((s.dropWhile pyIsSpace).reverse.dropWhile pyIsSpace).reverse

/-- Numeric value of a run of ASCII digits. -/
def natOfDigits (l : List Char) : Nat :=
  l.foldl (fun a c => a * 10 + (c.toNat - 48)) 0

/-- Python int(string): optional surrounding whitespace, an optional sign,
then a nonempty run of digits.  ASCII model; underscore separators are
unreachable in this program because the scan in _get_int_at_end_of_string
grows suffixes one character at a time and a suffix starting with an
underscore never parses. -/
def pyIntParse (s : List Char) : Option Int :=
  match pyStrip s with
  | [] => none
  | c :: rest =>
    if c == '+' then
      if rest ≠ [] ∧ rest.all Char.isDigit then some (natOfDigits rest) else none
    else if c == '-' then
      if rest ≠ [] ∧ rest.all Char.isDigit then some (-(natOfDigits rest : Int)) else none
    else if (c :: rest).all Char.isDigit then some (natOfDigits (c :: rest)) else none

/-- string[-n :] with Python slice clamping: the last n characters, or the
whole string when n is at least its length. -/
def lastN (s : List Char) (n : Nat) : List Char := s.drop (s.length - n)

/-- Python str.rfind restricted to a single character: index of the last
occurrence, if any. -/
def rfindIdx (s : List Char) (c : Char) : Option Nat :=
  (((List.range s.length).filter (fun i => s.getD i ' ' == c)).getLast?)

/-- os.path.splitext (posixpath, genericpath._splitext with sep = '/' and no
altsep): split off the extension of the last path component, treating leading
dots of the component as part of the stem. -/
def splitext (p : List Char) : List Char × List Char :=
  let sepIndex : Int := match rfindIdx p '/' with | some i => (i : Int) | none => -1
  let dotIndex : Int := match rfindIdx p '.' with | some i => (i : Int) | none => -1
  if sepIndex < dotIndex then
    let d := dotIndex.toNat
    let start := (sepIndex + 1).toNat
    if ((p.drop start).take (d - start)).any (fun c => c != '.') then
      (p.take d, p.drop d)
    else (p, [])
  else (p, [])

/-- Python str.zfill: left-pad with '0' to the given width, keeping a leading
sign in front of the padding. -/
def zfill (s : List Char) (width : Nat) : List Char :=
  match s with
  | [] => List.replicate width '0'
  | c :: rest =>
    if c == '+' || c == '-' then
      c :: (List.replicate (width - (rest.length + 1)) '0' ++ rest)
    else
      List.replicate (width - (rest.length + 1)) '0' ++ (c :: rest)

/-- increment_fname.py lines 9-18, _get_int_at_end_of_string.  The Python
loop grows i until int(string[-(i+1):]) raises ValueError; prev carries the
value parsed on the previous iteration (which the Python code recomputes as
int(string[-i:])).  The fuel argument bounds the number of loop iterations. -/
def _get_int_at_end_of_string (s : List Char) (nDigits : Nat) :
    Option Int → Nat → Nat → Option (Option Int × List Char × Nat)
  | _, _, 0 => none
  | prev, i, fuel + 1 =>
    match pyIntParse (lastN s (i + 1)) with
    | some v => _get_int_at_end_of_string s nDigits (some v) (i + 1) fuel
    | none =>
      if i = 0 then some (none, s, nDigits)
      else some (prev, s.take (s.length - i), i)

/-- Result of one _sub call or of increment_fname: a produced path, or the
NotImplementedError("Too many digits to increment") exception. -/
inductive IncOut
  | ok (path : List Char)
  | tooManyDigits
deriving DecidableEq

/-- increment_fname.py lines 8-30, _sub.  Note that line 21 rebinds n_digits
to the width of the parsed suffix whenever one was found.  The float test
math.log10(count + 1) >= n_digits is modeled with the exact real-valued
logarithm, as count + 1 >= 10 ^ n_digits. -/
def _sub (allowIncreaseNDigits : Bool) (path : List Char) (nDigits0 fuel : Nat) :
    Option IncOut :=
  let root := (splitext path).1
  let ext := (splitext path).2
  match _get_int_at_end_of_string root nDigits0 none 0 fuel with
    | none => none
    | some (count?, baseStr, nDigits) =>
      match count? with
      | none =>
        -- count is None: count = 0, no overflow test, suffix str(0+1).zfill
        some (.ok (baseStr ++ zfill (Nat.repr (0 + 1)).data nDigits ++ ext))
      | some c =>
        if c < 0 then
          -- count < 0: count = 0, no overflow test
          some (.ok (baseStr ++ zfill (Nat.repr (0 + 1)).data nDigits ++ ext))
        else if 10 ^ nDigits ≤ c.toNat + 1 then
          if allowIncreaseNDigits then
            some (.ok (baseStr ++ zfill (Nat.repr (c.toNat + 1)).data (nDigits + 1) ++ ext))
          else some .tooManyDigits
        else
          some (.ok (baseStr ++ zfill (Nat.repr (c.toNat + 1)).data nDigits ++ ext))

/-- increment_fname.py lines 5-35: the outer collision loop.  fs is the
os.path.exists oracle; ifuel bounds the trailing-digit scan inside each _sub
call, the final argument bounds the collision loop itself. -/
def increment_fname (fs : List Char → Bool) (path : List Char) (nDigits : Nat)
    (overwrite allowIncreaseNDigits : Bool) (ifuel : Nat) : Nat → Option IncOut
  | 0 => none
  | ofuel + 1 =>
    match _sub allowIncreaseNDigits path nDigits ifuel with
    | none => none
    | some .tooManyDigits => some .tooManyDigits
    | some (.ok p) =>
      if overwrite || !fs p then some (.ok p)
      else increment_fname fs p nDigits overwrite allowIncreaseNDigits ifuel ofuel

/- ===================== pygmid2aud.py ===================== -/

/-- Characters special to Python regular expressions. -/
def regexSpecial : List Char :=
  ['.', '^', '$', '*', '+', '?', '\x7b', '\x7d', '[', ']', '\\', '|', '(', ')']

/-- Anchored matching for the fragment of Python regular expressions that
check_for_noisy_apps can feed to re.search: ordinary characters and the '.'
wildcard (which matches any character except a newline).  re.IGNORECASE is
modeled by comparing lowercased characters. -/
def matchAt : List Char → List Char → Bool
  | [], _ => true
  | _ :: _, [] => false
  | p :: ps, t :: ts =>
    if p == '.' then (t != '\n') && matchAt ps ts
    else (p.toLower == t.toLower) && matchAt ps ts

/-- re.search(pattern, text, re.IGNORECASE) for the pattern fragment of
matchAt: some suffix of the text matches the pattern at its start. -/
def reSearchIC (pattern text : List Char) : Bool :=
  (List.range (text.length + 1)).any (fun i => matchAt pattern (text.drop i))

/-- pygmid2aud.py lines 269-272: the list of denylist entries that re.search
finds in the ps aux output. -/
def noisyAppMatches (apps : List (List Char)) (psResult : List Char) :
    List (List Char) :=
  apps.filter (fun app => reSearchIC app psResult)

/-- Lowercase a string (ASCII model of str.lower under re.IGNORECASE). -/
def lowerStr (s : List Char) : List Char := s.map Char.toLower

/-- The specification notion of matching, stated from the spec words: the
entry occurs, ignoring case, as a literal substring of the process-list
text.  (This is the spec-side definition used to compare the code's regex
matching against; everything else in this file is translated from the
source.) -/
def containsCI (needle hay : List Char) : Prop :=
  lowerStr needle <:+: lowerStr hay

instance (n h : List Char) : Decidable (containsCI n h) :=
  inferInstanceAs (Decidable (lowerStr n <:+: lowerStr h))

/-- System state touched by the workflow: the notification-suppression flag
(do-not-disturb) and the current audio output device. -/
structure SysState where
  dndOn : Bool
  device : List Char
deriving DecidableEq

/-- stdout of "do-not-disturb status". -/
def dndStatusStr (b : Bool) : List Char := if b then "on".data else "off".data

/-- pygmid2aud.py lines 241-251, dnd_off: read the status; if it is "off",
turn do-not-disturb on; return the original status string. -/
def dnd_off (st : SysState) : SysState × List Char :=
  let status := dndStatusStr st.dndOn
  if status = "off".data then ({ st with dndOn := true }, status) else (st, status)

/-- pygmid2aud.py lines 254-256, restore_dnd: turn do-not-disturb back off
only if the original status was "off".  The fails flag injects a failure of
the do-not-disturb subprocess (check=True raises); on failure the state is
unchanged and the exception propagates. -/
def restore_dnd (fails : Bool) (origStatus : List Char) (st : SysState) :
    Except Unit SysState :=
  if origStatus = "off".data then
    if fails then .error () else .ok { st with dndOn := false }
  else .ok st

/-- The fixed virtual capture device name. -/
def soundflowerName : List Char := "Soundflower (2ch)".data

/-- pygmid2aud.py lines 71-77, soundflower_on. -/
def soundflower_on (st : SysState) : SysState :=
  { st with device := soundflowerName }

/-- pygmid2aud.py lines 80-86, soundflower_off.  The fails flag injects a
failure of SwitchAudioSource (check=True raises); on failure the device is
unchanged and the exception propagates. -/
def soundflower_off (fails : Bool) (origDevice : List Char) (st : SysState) :
    Except Unit SysState :=
  if fails then .error () else .ok { st with device := origDevice }

/-- pygmid2aud.py lines 122-129, get_frames: the number of blocking reads the
capture thread performs, computed from the float expression
math.ceil(rate / frames_per_buffer * (dur + extra_dur)) (modeled over ℚ). -/
def numReads (rate fpb : Nat) (dur extraDur : ℚ) : Nat :=
  Nat.ceil ((rate : ℚ) / (fpb : ℚ) * (dur + extraDur))

/-- The read loop of get_frames: one blocking stream.read per iteration,
appended to the frames buffer; stream i is the data the i-th read returns. -/
def readLoop (stream : Nat → List Nat) (frames : List (List Nat)) (i : Nat) :
    Nat → List (List Nat)
  | 0 => frames
  | n + 1 => readLoop stream (frames ++ [stream i]) (i + 1) n

/-- pygmid2aud.py lines 122-129, get_frames (parameter order as in the
source; extra_dur defaults to 1 at the call site in record). -/
def get_frames (stream : Nat → List Nat) (rate : Nat) (dur : ℚ) (fpb : Nat)
    (frames : List (List Nat)) (extraDur : ℚ) : List (List Nat) :=
  readLoop stream frames 0 (numReads rate fpb dur extraDur)

/-- Audio data written to disk: write_wav into the temp file, shutil.move of
the temp file, or an ffmpeg transcode ("-y" when the flag is true, "-n"
otherwise). -/
inductive FileWrite
  | wav (path : List Char)
  | move (src dst : List Char)
  | transcode (overwriteFlag : Bool) (src dst : List Char)
deriving DecidableEq

/-- pygmid2aud.py lines 179-182, the tail of record: if any frames were
captured, write them to the temporary wav file and return True, else write
nothing and return False.  (Python: `if frames:` is the nonemptiness test.) -/
def record_result (frames : List (List Nat)) (tempOutPath : List Char) :
    List FileWrite × Bool :=
  if frames ≠ [] then ([.wav tempOutPath], true) else ([], false)

/-- Messages printed to the user by the embedded functions, in program
order.  One constructor per print site of the embedded code. -/
inductive Msg
  | noisyAppsReport (apps : List (List Char))
  | existingDevice (d : List Char)
  | switchingToSoundflower
  | duration (dur : ℚ)
  | progress
  | restoringDevice (d : List Char)
  | outputWritten (p : List Char)
  | converting (p : List Char)
deriving DecidableEq

/-- os.path.dirname (posixpath.dirname with sep = '/'): everything up to and
including the last '/', with trailing slashes stripped unless the head
consists only of slashes; the empty string when the path has no '/'. -/
def dirname (p : List Char) : List Char :=
  let i := match rfindIdx p '/' with | some j => j + 1 | none => 0
  let head := p.take i
  if head ≠ [] ∧ ¬ head.all (fun c => c == '/') then
    (head.reverse.dropWhile (fun c => c == '/')).reverse
  else head

/-- Result of one write_to_output_path call: the writes performed together
with the messages printed, or the FileNotFoundError raised by os.makedirs
when the output path has an empty directory component. -/
inductive WriteOut
  | ok (writes : List FileWrite) (msgs : List Msg)
  | fileNotFound
deriving DecidableEq

/-- pygmid2aud.py lines 216-238, write_to_output_path.  If output_path is
None it defaults to the midi path with extension ".m4a" (lines 217-218).
Lines 219-220 then run, before any branch:
if not os.path.exists(os.path.dirname(output_path)):
os.makedirs(os.path.dirname(output_path)).  fs is the os.path.exists oracle,
with os.path.exists("") hard-coded to False as in Python; os.makedirs("")
raises FileNotFoundError, so an output path with an empty directory
component fails here before any move or transcode, while a nonempty missing
directory is created (makedirs succeeds; the directory itself is no audio
output and is not recorded as a write).  none models a call that does not
return (the filename-increment loop running out of fuel); the
NotImplementedError arm of increment_fname is unreachable here since
allow_increase_n_digits defaults to True, and is mapped to none as well. -/
def write_to_output_path (fs : List Char → Bool) (midiPath : List Char)
    (outputPath : Option (List Char)) (tempOutPath : List Char)
    (overwrite : Bool) (fuel : Nat) : Option WriteOut :=
  let outp := match outputPath with
    | none => (splitext midiPath).1 ++ ".m4a".data
    | some q => q
  let d := dirname outp
  let dirExists : Bool := if d = [] then false else fs d
  let rest : Option WriteOut :=
    if (".wav".data).isSuffixOf outp then
      some (.ok [.move tempOutPath outp] [.outputWritten outp])
    else
      if overwrite then
        some (.ok [.transcode true tempOutPath outp] [.converting outp])
      else
        match increment_fname fs outp 2 false true fuel fuel with
        | none => none
        | some .tooManyDigits => none
        | some (.ok p) => some (.ok [.transcode false tempOutPath p] [.converting p])
  if dirExists then rest
  else if d = [] then some .fileNotFound
  else rest

/-- Outcome of the record(...) call inside the try block of main: either an
injected failure at an arbitrary point (carrying whatever messages record
printed and whether the temp wav had already been written before the
failure), or a normal return with the captured frames. -/
inductive RecOutcome
  | raise (emitted : List Msg) (wroteTemp : Bool)
  | frames (captured : List (List Nat))

/-- How main terminates. -/
inductive MainExit
  | noisyAbort
  | raised
  | success
  | hung
deriving DecidableEq

/-- Result of a run of main: final system state, how it exited, the audio
files written, and the messages printed. -/
structure MainResult where
  final : SysState
  exit : MainExit
  writes : List FileWrite
  msgs : List Msg
deriving DecidableEq

/-- Inputs of a run of main (pygmid2aud.py lines 287-322): the denylist and
ps aux output read by check_for_noisy_apps, the media duration, the outcome
of record, injected failures of the two restoration subprocesses, and the
CLI arguments.  fs is the os.path.exists oracle used by increment_fname. -/
structure Env where
  apps : List (List Char)
  ps : List Char
  dur : ℚ
  recOut : RecOutcome
  swRestoreFails : Bool
  dndRestoreFails : Bool
  overwrite : Bool
  midiPath : List Char
  outputPath : Option (List Char)
  tempPath : List Char
  fs : List Char → Bool
  fuel : Nat

/-- pygmid2aud.py lines 287-322, main, statement by statement:
dnd_off; check_for_noisy_apps (sys.exit(1) on a match — note this runs after
dnd_off and outside the try block, so nothing is restored on that path);
tempfile.mkstemp (allocates the temp path; writes no audio data);
get_existing_output_device; soundflower_on; try: record; on an exception
soundflower_off then restore_dnd then re-raise (a failing soundflower_off
skips restore_dnd); on normal return the same two restorations, then
write_to_output_path if record returned True. -/
def mainRun (env : Env) (st0 : SysState) : MainResult :=
  let p1 := dnd_off st0
  let st1 := p1.1
  let origDnd := p1.2
  let openApps := noisyAppMatches env.apps env.ps
  if openApps ≠ [] then
    ⟨st1, .noisyAbort, [], [.noisyAppsReport openApps]⟩
  else
    let origDevice := st1.device
    let st2 := soundflower_on st1
    let msgs0 : List Msg := [.existingDevice origDevice, .switchingToSoundflower]
    match env.recOut with
    | .raise emitted wroteTemp =>
      let recWrites := if wroteTemp then [FileWrite.wav env.tempPath] else []
      match soundflower_off env.swRestoreFails origDevice st2 with
      | .error _ => ⟨st2, .raised, recWrites, msgs0 ++ emitted⟩
      | .ok st3 =>
        match restore_dnd env.dndRestoreFails origDnd st3 with
        | .error _ =>
          ⟨st3, .raised, recWrites, msgs0 ++ emitted ++ [.restoringDevice origDevice]⟩
        | .ok st4 =>
          ⟨st4, .raised, recWrites, msgs0 ++ emitted ++ [.restoringDevice origDevice]⟩
    | .frames captured =>
      let rr := record_result captured env.tempPath
      let recMsgs : List Msg := [.duration env.dur, .progress]
      match soundflower_off env.swRestoreFails origDevice st2 with
      | .error _ => ⟨st2, .raised, rr.1, msgs0 ++ recMsgs⟩
      | .ok st3 =>
        match restore_dnd env.dndRestoreFails origDnd st3 with
        | .error _ =>
          ⟨st3, .raised, rr.1, msgs0 ++ recMsgs ++ [.restoringDevice origDevice]⟩
        | .ok st4 =>
          if rr.2 then
            match write_to_output_path env.fs env.midiPath env.outputPath
                env.tempPath env.overwrite env.fuel with
            | none => ⟨st4, .hung, rr.1, msgs0 ++ recMsgs ++ [.restoringDevice origDevice]⟩
            | some .fileNotFound =>
              -- FileNotFoundError from os.makedirs propagates to the top
              -- level; the restores have already run at this point
              ⟨st4, .raised, rr.1, msgs0 ++ recMsgs ++ [.restoringDevice origDevice]⟩
            | some (.ok ws ms) =>
              ⟨st4, .success, rr.1 ++ ws,
                msgs0 ++ recMsgs ++ [.restoringDevice origDevice] ++ ms⟩
          else ⟨st4, .success, rr.1, msgs0 ++ recMsgs ++ [.restoringDevice origDevice]⟩

/- ===================== helper lemmas ===================== -/

theorem pyIsSpace_eq_false_of_isDigit (c : Char) (h : c.isDigit = true) :
    pyIsSpace c = false := by
  rcases Bool.eq_false_or_eq_true (pyIsSpace c) with ht | hf
  · exfalso
    simp only [pyIsSpace, Bool.or_eq_true, beq_iff_eq] at ht
    rcases ht with ((((h1 | h1) | h1) | h1) | h1) | h1 <;> subst h1 <;>
      exact absurd h (by decide)
  · exact hf

theorem dropWhile_eq_self_of_none (p : Char → Bool) (l : List Char)
    (h : ∀ c ∈ l, p c = false) : l.dropWhile p = l := by
  cases l with
  | nil => rfl
  | cons a t => simp [List.dropWhile_cons, h a (List.mem_cons_self a t)]

theorem pyStrip_eq_self (s : List Char) (h : ∀ c ∈ s, pyIsSpace c = false) :
    pyStrip s = s := by
  unfold pyStrip
  rw [dropWhile_eq_self_of_none _ _ h]
  rw [dropWhile_eq_self_of_none _ _ (fun c hc => h c (List.mem_reverse.mp hc))]
  exact List.reverse_reverse s

theorem pyIntParse_isSome_of_digits (t : List Char) (hne : t ≠ [])
    (hall : ∀ c ∈ t, c.isDigit = true) : (pyIntParse t).isSome = true := by
  have hsp : ∀ c ∈ t, pyIsSpace c = false :=
    fun c hc => pyIsSpace_eq_false_of_isDigit c (hall c hc)
  unfold pyIntParse
  rw [pyStrip_eq_self t hsp]
  cases t with
  | nil => exact absurd rfl hne
  | cons c rest =>
    have hcd : c.isDigit = true := hall c (List.mem_cons_self _ _)
    have hplus : (c == '+') = false := by
      rw [beq_eq_false_iff_ne]
      intro h1
      subst h1
      exact absurd hcd (by decide)
    have hminus : (c == '-') = false := by
      rw [beq_eq_false_iff_ne]
      intro h1
      subst h1
      exact absurd hcd (by decide)
    have hallb : (c :: rest).all Char.isDigit = true :=
      List.all_eq_true.mpr (fun x hx => hall x hx)
    simp [hplus, hminus, hallb]

theorem lastN_ne_nil (s : List Char) (hs : s ≠ []) (n : Nat) (hn : 1 ≤ n) :
    lastN s n ≠ [] := by
  unfold lastN
  intro h
  have hl := congrArg List.length h
  simp only [List.length_drop, List.length_nil] at hl
  have hpos : 0 < s.length := List.length_pos.mpr hs
  omega

theorem mem_of_mem_lastN (s : List Char) (n : Nat) (c : Char)
    (h : c ∈ lastN s n) : c ∈ s :=
  List.mem_of_mem_drop h

theorem get_int_scan_diverges (s : List Char) (hne : s ≠ [])
    (hall : ∀ c ∈ s, c.isDigit = true) (nd : Nat) :
    ∀ fuel prev i, _get_int_at_end_of_string s nd prev i fuel = none := by
  intro fuel
  induction fuel with
  | zero => intro prev i; rfl
  | succ k ih =>
    intro prev i
    have hsome : (pyIntParse (lastN s (i + 1))).isSome = true :=
      pyIntParse_isSome_of_digits _ (lastN_ne_nil s hne (i + 1) (by omega))
        (fun c hc => hall c (mem_of_mem_lastN s (i + 1) c hc))
    simp only [_get_int_at_end_of_string]
    rcases hv : pyIntParse (lastN s (i + 1)) with _ | v
    · rw [hv] at hsome
      simp at hsome
    · exact ih (some v) (i + 1)

theorem pyIntParse_single_nondigit (c : Char) (h : c.isDigit = false) :
    pyIntParse [c] = none := by
  have hstrip : pyStrip [c] = [] ∨ pyStrip [c] = [c] := by
    rcases Bool.eq_false_or_eq_true (pyIsSpace c) with ht | hf
    · left
      simp [pyStrip, List.dropWhile_cons, ht]
    · right
      simp [pyStrip, List.dropWhile_cons, hf]
  unfold pyIntParse
  rcases hstrip with h1 | h1
  · rw [h1]
  · rw [h1]
    by_cases hp : (c == '+') = true
    · simp [hp]
    · by_cases hm : (c == '-') = true
      · simp [hp, hm]
      · simp [hp, hm, h]

theorem pyIntParse_lastN_one_none (root : List Char)
    (hnd : (lastN root 1).any Char.isDigit = false) :
    pyIntParse (lastN root 1) = none := by
  have hl : (lastN root 1).length ≤ 1 := by
    unfold lastN
    rw [List.length_drop]
    omega
  rcases h1 : lastN root 1 with _ | ⟨c, _ | ⟨d, t⟩⟩
  · rfl
  · rw [h1] at hnd
    simp only [List.any_cons, List.any_nil, Bool.or_false] at hnd
    exact pyIntParse_single_nondigit c hnd
  · rw [h1] at hl
    simp at hl

theorem get_int_scan_stops_at_zero (root : List Char) (nd k : Nat)
    (hp : pyIntParse (lastN root 1) = none) :
    _get_int_at_end_of_string root nd none 0 (k + 1) = some (none, root, nd) := by
  simp only [_get_int_at_end_of_string, Nat.zero_add]
  rw [hp]
  simp

theorem readLoop_length (stream : Nat → List Nat) :
    ∀ (n : Nat) (frames : List (List Nat)) (i : Nat),
      (readLoop stream frames i n).length = frames.length + n := by
  intro n
  induction n with
  | zero => intro frames i; rfl
  | succ k ih =>
    intro frames i
    simp only [readLoop]
    rw [ih]
    simp only [List.length_append, List.length_cons, List.length_nil]
    omega

theorem matchAt_iff_lower_pref : ∀ (p : List Char), '.' ∉ p → ∀ (t : List Char),
    (matchAt p t = true ↔ lowerStr p <+: lowerStr t) := by
  intro p
  induction p with
  | nil =>
    intro _ t
    simp [matchAt, lowerStr]
  | cons c ps ih =>
    intro hnd t
    have hc : '.' ∉ ps := fun hmem => hnd (List.mem_cons_of_mem _ hmem)
    have hcd : c ≠ '.' := fun heq => hnd (heq ▸ List.mem_cons_self _ _)
    have hb : (c == '.') = false := beq_eq_false_iff_ne.mpr hcd
    cases t with
    | nil =>
      simp [matchAt, lowerStr]
    | cons d ts =>
      simp only [matchAt, hb, Bool.false_eq_true, if_false, lowerStr, List.map_cons,
        List.cons_prefix_cons, Bool.and_eq_true, beq_iff_eq]
      constructor
      · rintro ⟨h1, h2⟩
        exact ⟨h1, ((ih hc ts).mp h2)⟩
      · rintro ⟨h1, h2⟩
        exact ⟨h1, ((ih hc ts).mpr h2)⟩

theorem lowerStr_drop (t : List Char) (i : Nat) :
    lowerStr (t.drop i) = (lowerStr t).drop i := by
  simp [lowerStr, List.map_drop]

theorem reSearchIC_eq_containsCI (p t : List Char) (hnd : '.' ∉ p) :
    (reSearchIC p t = true ↔ containsCI p t) := by
  unfold reSearchIC containsCI
  rw [List.any_eq_true]
  constructor
  · rintro ⟨i, _, hm⟩
    rw [matchAt_iff_lower_pref p hnd, lowerStr_drop] at hm
    obtain ⟨r, hr⟩ := hm
    exact ⟨(lowerStr t).take i, r, by
      rw [List.append_assoc, hr, List.take_append_drop]⟩
  · rintro ⟨s, t2, hst⟩
    refine ⟨s.length, ?_, ?_⟩
    · rw [List.mem_range]
      have hlen := congrArg List.length hst
      simp only [List.length_append] at hlen
      have hlt : (lowerStr t).length = t.length := by simp [lowerStr]
      omega
    · rw [matchAt_iff_lower_pref p hnd, lowerStr_drop]
      have hdrop : (lowerStr t).drop s.length = lowerStr p ++ t2 := by
        rw [← hst, List.append_assoc, List.drop_left]
      rw [hdrop]
      exact ⟨t2, rfl⟩

/- ===================== claim theorems ===================== -/

/-- C1 the claim says increment_fname terminates on every input path, in
particular on a stem consisting entirely of digits.  The code does not: on
the path "123.wav" the trailing-digit scan never raises ValueError (the
Python slice string[-(i+1):] clamps to the whole stem "123", which parses as
an integer for every i), so _get_int_at_end_of_string loops forever and
increment_fname never returns, for every fuel bound, every file system,
every minimum digit width and both flags. -/
theorem C1_increment_diverges_on_all_digit_stem :
    ∀ (fs : List Char → Bool) (nDigits : Nat) (ow ai : Bool) (ifuel ofuel : Nat),
      increment_fname fs "123.wav".data nDigits ow ai ifuel ofuel = none := by
  intro fs nDigits ow ai ifuel ofuel
  have hsp : splitext "123.wav".data = ("123".data, ".wav".data) := by decide
  have hsub : _sub ai "123.wav".data nDigits ifuel = none := by
    simp only [_sub, hsp]
    rw [get_int_scan_diverges "123".data (by decide) (by decide) nDigits ifuel none 0]
  cases ofuel with
  | zero => rfl
  | succ k =>
    simp only [increment_fname]
    rw [hsub]

/-- C4 counterexample: the claim says the zero-pad width is
max(n_digits, w), so that incrementing "file5.txt" with minimum digit width 3
yields "file006.txt".  The code instead rebinds n_digits to the parsed width
w = 1 and yields "file6.txt". -/
theorem C4_counterexample :
    increment_fname (fun _ => false) "file5.txt".data 3 false true 10 10
        = some (.ok "file6.txt".data) ∧
      "file6.txt".data ≠ "file006.txt".data := by decide

/-- C4 amended: when the stem ends in a numeric suffix of width w, the width
used to zero-pad the next counter is the parsed width w itself (grown by one
only on digit overflow); the minimum digit width n_digits is discarded.  In
particular incrementing "file5.txt" yields "file6.txt" (suffix padded to the
parsed width 1) for every requested minimum digit width. -/
theorem C4_amended (nDigits : Nat) (fs : List Char → Bool) (ow : Bool)
    (hfs : fs "file6.txt".data = false) :
    increment_fname fs "file5.txt".data nDigits ow true 10 10
      = some (.ok "file6.txt".data) := by
  have hstep :
      increment_fname fs "file5.txt".data nDigits ow true 10 10
        = if ow || !fs "file6.txt".data then some (.ok "file6.txt".data)
          else increment_fname fs "file6.txt".data nDigits ow true 10 9 := rfl
  rw [hstep, hfs]
  cases ow <;> rfl

/-- C4 amended, witness at the claim instance n_digits = 3. -/
theorem C4_amended_witness :
    increment_fname (fun _ => false) "file5.txt".data 3 false true 10 10
      = some (.ok "file6.txt".data) :=
  C4_amended 3 (fun _ => false) false rfl

/-- C5 digit overflow: incrementing "file999.txt" with n_digits = 3 and
allow_increase_n_digits = False raises the digit-overflow exception
(NotImplementedError in the source); with growth allowed it returns
"file1000.txt", the width grown by exactly one. -/
theorem C5_digit_overflow :
    increment_fname (fun _ => false) "file999.txt".data 3 false false 10 10
        = some .tooManyDigits ∧
      increment_fname (fun _ => false) "file999.txt".data 3 false true 10 10
        = some (.ok "file1000.txt".data) := by decide

/-- C9 for every path whose stem does not end in a digit, increment_fname
appends the counter 1 zero-padded to the minimum digit width n_digits and
preserves the extension, provided the produced path does not already exist
(the zfill clause spells out the zero padding). -/
theorem C9_no_trailing_digit (p root ext : List Char) (fs : List Char → Bool)
    (nDigits : Nat) (ow ai : Bool) (ifuel ofuel : Nat)
    (hsplit : splitext p = (root, ext))
    (hnd : (lastN root 1).any Char.isDigit = false)
    (hif : 1 ≤ ifuel) (hof : 1 ≤ ofuel)
    (hfs : fs (root ++ zfill (Nat.repr (0 + 1)).data nDigits ++ ext) = false) :
    increment_fname fs p nDigits ow ai ifuel ofuel
        = some (.ok (root ++ zfill (Nat.repr (0 + 1)).data nDigits ++ ext)) ∧
      zfill (Nat.repr (0 + 1)).data nDigits
        = List.replicate (nDigits - 1) '0' ++ ['1'] := by
  obtain ⟨j, rfl⟩ : ∃ j, ifuel = j + 1 := ⟨ifuel - 1, by omega⟩
  obtain ⟨m, rfl⟩ : ∃ m, ofuel = m + 1 := ⟨ofuel - 1, by omega⟩
  have hparse : pyIntParse (lastN root 1) = none := pyIntParse_lastN_one_none root hnd
  have hscan := get_int_scan_stops_at_zero root nDigits j hparse
  have hsub : _sub ai p nDigits (j + 1)
      = some (.ok (root ++ zfill (Nat.repr (0 + 1)).data nDigits ++ ext)) := by
    simp only [_sub, hsplit, hscan]
  constructor
  · simp only [increment_fname, hsub, hfs]
    cases ow <;> rfl
  · have h1 : (Nat.repr (0 + 1)).data = ['1'] := rfl
    rw [h1]
    simp [zfill]

/-- C9 witness at "song.mid" with n_digits = 3. -/
theorem C9_witness :
    increment_fname (fun _ => false) "song.mid".data 3 false true 1 1
        = some (.ok ("song".data ++ zfill (Nat.repr (0 + 1)).data 3 ++ ".mid".data)) ∧
      zfill (Nat.repr (0 + 1)).data 3 = List.replicate (3 - 1) '0' ++ ['1'] :=
  C9_no_trailing_digit "song.mid".data "song".data ".mid".data (fun _ => false)
    3 false true 1 1 (by decide) (by decide) (by decide) (by decide) rfl

/-- C6 counterexample: the claim says a denylist entry matches exactly when
it occurs, ignoring case, as a literal substring — for every entry, including
those containing regex-special characters.  The entry "a.c" is flagged
against the process text "abc" although it is not a substring of it: the
code passes the entry to re.search as a pattern, where '.' matches any
character. -/
theorem C6_counterexample :
    noisyAppMatches ["a.c".data] "abc".data = ["a.c".data] ∧
      ¬ containsCI "a.c".data "abc".data := by decide

/-- C6 amended: the denylist entry is interpreted as a case-insensitive
regular-expression pattern, not as a literal string; for entries that contain
no regex-special character, this coincides with case-insensitive substring
matching (so "Zoom" matches "zoom.us"), but entries containing such
characters are matched as patterns. -/
theorem C6_amended (apps : List (List Char)) (ps app : List Char)
    (h : ∀ c ∈ app, c ∉ regexSpecial) :
    (app ∈ noisyAppMatches apps ps ↔ app ∈ apps ∧ containsCI app ps) := by
  have hnd : '.' ∉ app := fun hmem => (h '.' hmem) (by decide)
  unfold noisyAppMatches
  rw [List.mem_filter]
  constructor
  · rintro ⟨h1, h2⟩
    exact ⟨h1, (reSearchIC_eq_containsCI app ps hnd).mp h2⟩
  · rintro ⟨h1, h2⟩
    exact ⟨h1, (reSearchIC_eq_containsCI app ps hnd).mpr h2⟩

/-- C6 amended, witness at the spec example: entry "Zoom", process text
containing "zoom.us". -/
theorem C6_amended_witness :
    ("Zoom".data ∈ noisyAppMatches ["Zoom".data] "usr 321 zoom.us".data ↔
      "Zoom".data ∈ ["Zoom".data] ∧ containsCI "Zoom".data "usr 321 zoom.us".data) :=
  C6_amended ["Zoom".data] "usr 321 zoom.us".data "Zoom".data (by decide)

/-- C7 for every capture session the capture thread performs exactly
ceil(rate / frames_per_buffer * (duration + extra)) blocking reads with the
tail slack extra_dur fixed at 1 second (each read appends one chunk to the
frame buffer); in particular for duration 5 s, frame size 1024 and rate
44100 it performs ceil(44100/1024 * 6) = 259 reads. -/
theorem C7_read_count :
    (∀ (stream : Nat → List Nat) (rate : Nat) (dur : ℚ) (fpb : Nat)
        (frames : List (List Nat)), 0 < fpb →
      (get_frames stream rate dur fpb frames 1).length
        = frames.length + Nat.ceil ((rate : ℚ) / (fpb : ℚ) * (dur + 1))) ∧
      numReads 44100 1024 5 1 = 259 := by
  constructor
  · intro stream rate dur fpb frames _
    unfold get_frames numReads
    exact readLoop_length stream _ frames 0
  · unfold numReads
    have h : (((44100 : Nat) : ℚ)) / (((1024 : Nat) : ℚ)) * (5 + 1) = 33075 / 128 := by
      push_cast
      norm_num
    rw [h, Nat.ceil_eq_iff (by norm_num)]
    norm_num

/-- C7 witness at the spec instance. -/
theorem C7_read_count_witness :
    (get_frames (fun _ => [0]) 44100 5 1024 [] 1).length
      = ([] : List (List Nat)).length
        + Nat.ceil (((44100 : Nat) : ℚ) / (((1024 : Nat) : ℚ)) * (5 + 1)) :=
  C7_read_count.1 (fun _ => [0]) 44100 5 1024 [] (by decide)

/-- C10 counterexample: the claim says that for a final output path ending
in ".wav" the temporary file is moved to that exact path unconditionally.
But before any branch the code runs os.makedirs when
os.path.exists(os.path.dirname(output_path)) is false: for "out.wav" the
directory component is "", os.path.exists("") is False, and os.makedirs("")
raises FileNotFoundError, so the call raises and no move happens. -/
theorem C10_counterexample :
    write_to_output_path (fun _ => false) "a.mid".data (some "out.wav".data)
        "/tmp/t.wav".data true 3 = some .fileNotFound ∧
      write_to_output_path (fun _ => false) "a.mid".data (some "out.wav".data)
          "/tmp/t.wav".data true 3
        ≠ some (.ok [.move "/tmp/t.wav".data "out.wav".data]
            [.outputWritten "out.wav".data]) := by decide

/-- C10 amended: when the final output path ends in ".wav" and its directory
component is nonempty (so the preceding os.makedirs step cannot raise the
deterministic FileNotFoundError of os.makedirs("")), write_to_output_path
moves the temporary file to that exact path unconditionally: the statement
holds for every overwrite flag and every file system, so the overwrite flag
is never consulted, the filename incrementer is never invoked on this
branch, a missing directory is simply created first, and the move replaces
whatever is at the destination.  For a .wav path with an empty directory
component the call instead raises FileNotFoundError before any write. -/
theorem C10_amended (fs : List Char → Bool)
    (midi outp temp : List Char) (ow : Bool) (fuel : Nat)
    (hwav : (".wav".data).isSuffixOf outp = true)
    (hdir : dirname outp ≠ []) :
    write_to_output_path fs midi (some outp) temp ow fuel
      = some (.ok [.move temp outp] [.outputWritten outp]) := by
  unfold write_to_output_path
  simp [hdir, hwav]

/-- C10 amended, witness at a .wav output path with a directory component. -/
theorem C10_amended_witness :
    write_to_output_path (fun _ => true) "a.mid".data (some "out/x.wav".data)
        "/tmp/t.wav".data true 3
      = some (.ok [.move "/tmp/t.wav".data "out/x.wav".data]
          [.outputWritten "out/x.wav".data]) :=
  C10_amended (fun _ => true) "a.mid".data "out/x.wav".data
    "/tmp/t.wav".data true 3 (by decide) (by decide)

/-- C2 counterexample: the claim says both restorations are attempted even if
one of them fails.  In the code the except block runs soundflower_off first
and restore_dnd second with no inner guard, so when the device restoration
itself fails (SwitchAudioSource raises), restore_dnd is never reached: an
error propagates to the top level while the suppression state is still the
mutated one (do-not-disturb on, though the pre-suppression snapshot was off)
and the output device is still the capture device. -/
theorem C2_counterexample :
    (mainRun
        ⟨[], [], 5, .raise [] false, true, false, false, "song.mid".data, none,
          "/tmp/t.wav".data, fun _ => false, 5⟩
        ⟨false, "Speakers".data⟩).exit = .raised ∧
      (mainRun
          ⟨[], [], 5, .raise [] false, true, false, false, "song.mid".data, none,
            "/tmp/t.wav".data, fun _ => false, 5⟩
          ⟨false, "Speakers".data⟩).final.dndOn = true ∧
      (SysState.mk false "Speakers".data).dndOn = false ∧
      (mainRun
          ⟨[], [], 5, .raise [] false, true, false, false, "song.mid".data, none,
            "/tmp/t.wav".data, fun _ => false, 5⟩
          ⟨false, "Speakers".data⟩).final.device = soundflowerName := by decide

/-- C2 amended: for a failure raised at any point inside the recording phase
(after the device has been rerouted), the device restoration is attempted
first and, when it succeeds, the suppression restoration follows; when both
restorations succeed the final device and suppression state equal their
pre-mutation snapshots and the error then propagates to the top level.  If
the device restoration itself fails, the suppression restoration is skipped
and the restoration failure propagates instead. -/
theorem C2_amended (apps : List (List Char)) (ps : List Char) (dur : ℚ)
    (ems : List Msg) (wtemp : Bool) (ow : Bool) (midi : List Char)
    (outp : Option (List Char)) (temp : List Char) (fs : List Char → Bool)
    (fuel : Nat) (st0 : SysState)
    (hnoisy : noisyAppMatches apps ps = []) :
    (mainRun
        ⟨apps, ps, dur, .raise ems wtemp, false, false, ow, midi, outp, temp,
          fs, fuel⟩ st0).final = st0 ∧
      (mainRun
          ⟨apps, ps, dur, .raise ems wtemp, false, false, ow, midi, outp, temp,
            fs, fuel⟩ st0).exit = .raised := by
  obtain ⟨d, dev⟩ := st0
  have honoff : ("on".data : List Char) ≠ "off".data := by decide
  cases d <;>
    simp [mainRun, dnd_off, dndStatusStr, soundflower_on, soundflower_off,
      restore_dnd, hnoisy, honoff]

/-- C2 amended, witness: injected failure during record with both
restorations succeeding restores the snapshot state. -/
theorem C2_amended_witness :
    (mainRun
        ⟨[], [], 5, .raise [.duration 5] true, false, false, false,
          "song.mid".data, none, "/tmp/t.wav".data, fun _ => false, 5⟩
        ⟨false, "Speakers".data⟩).final = ⟨false, "Speakers".data⟩ ∧
      (mainRun
          ⟨[], [], 5, .raise [.duration 5] true, false, false, false,
            "song.mid".data, none, "/tmp/t.wav".data, fun _ => false, 5⟩
          ⟨false, "Speakers".data⟩).exit = .raised :=
  C2_amended [] [] 5 [.duration 5] true false "song.mid".data none
    "/tmp/t.wav".data (fun _ => false) 5 ⟨false, "Speakers".data⟩ (by decide)

/-- C3 the claim says the noisy-app check runs before the DoNotDisturbGuard
mutates any state, so that on a denylist match nothing has to be restored.
In the code main calls dnd_off() before check_for_noisy_apps(): with
do-not-disturb initially off and a matching denylist entry, the workflow
aborts with the noisy-app failure while do-not-disturb has been switched on
and is never restored (the audio device, queried and switched only later, is
indeed untouched on this path). -/
theorem C3_dnd_mutated_before_noisy_check :
    (mainRun
        ⟨["Zoom".data], "usr 321 zoom.us".data, 5, .frames [], false, false,
          false, "song.mid".data, none, "/tmp/t.wav".data, fun _ => false, 5⟩
        ⟨false, "Speakers".data⟩)
      = ⟨⟨true, "Speakers".data⟩, .noisyAbort, [],
          [.noisyAppsReport ["Zoom".data]]⟩ ∧
      (SysState.mk true "Speakers".data).dndOn
        ≠ (SysState.mk false "Speakers".data).dndOn := by decide

/-- C8 counterexample: the claim says a zero-frame capture session reports
the nothing-captured condition to the user.  The complete message trace of a
zero-frame run is listed below: the device messages, the duration message and
the progress bar; no nothing-captured report of any kind is printed (record
returns False and main merely skips write_to_output_path), while indeed no
audio file is written and the run completes without error. -/
theorem C8_counterexample :
    mainRun
        ⟨[], [], 5, .frames [], false, false, false, "song.mid".data, none,
          "/tmp/t.wav".data, fun _ => false, 5⟩
        ⟨false, "Speakers".data⟩
      = ⟨⟨false, "Speakers".data⟩, .success, [],
          [.existingDevice "Speakers".data, .switchingToSoundflower,
           .duration 5, .progress, .restoringDevice "Speakers".data]⟩ := by decide

/-- C8 amended: if the input stream yields zero frames, no audio data is
written to any file (write_wav is skipped and no final output is produced),
the system state is restored, and the workflow completes as a normal success
rather than a hard error; no nothing-captured report is emitted. -/
theorem C8_amended (apps : List (List Char)) (ps : List Char) (dur : ℚ)
    (ow : Bool) (midi : List Char) (outp : Option (List Char))
    (temp : List Char) (fs : List Char → Bool) (fuel : Nat) (st0 : SysState)
    (hnoisy : noisyAppMatches apps ps = []) :
    (mainRun
        ⟨apps, ps, dur, .frames [], false, false, ow, midi, outp, temp,
          fs, fuel⟩ st0).writes = [] ∧
      (mainRun
          ⟨apps, ps, dur, .frames [], false, false, ow, midi, outp, temp,
            fs, fuel⟩ st0).exit = .success ∧
      (mainRun
          ⟨apps, ps, dur, .frames [], false, false, ow, midi, outp, temp,
            fs, fuel⟩ st0).final = st0 := by
  obtain ⟨d, dev⟩ := st0
  have honoff : ("on".data : List Char) ≠ "off".data := by decide
  cases d <;>
    simp [mainRun, dnd_off, dndStatusStr, soundflower_on, soundflower_off,
      restore_dnd, record_result, hnoisy, honoff]

/-- C8 amended, witness. -/
theorem C8_amended_witness :
    (mainRun
        ⟨[], [], 5, .frames [], false, false, true, "b.mid".data, none,
          "/tmp/u.wav".data, fun _ => true, 5⟩
        ⟨true, "Ext".data⟩).writes = [] ∧
      (mainRun
          ⟨[], [], 5, .frames [], false, false, true, "b.mid".data, none,
            "/tmp/u.wav".data, fun _ => true, 5⟩
          ⟨true, "Ext".data⟩).exit = .success ∧
      (mainRun
          ⟨[], [], 5, .frames [], false, false, true, "b.mid".data, none,
            "/tmp/u.wav".data, fun _ => true, 5⟩
          ⟨true, "Ext".data⟩).final = ⟨true, "Ext".data⟩ :=
  C8_amended [] [] 5 true "b.mid".data none "/tmp/u.wav".data (fun _ => true) 5
    ⟨true, "Ext".data⟩ (by decide)

